import Mathlib

/-
Verification of the RT-MHR evaluation harness (sweep execution and
results-aggregation pipeline).

The development shallowly embeds the three Python modules of the repository:

* RtmhrEval    — evaluation/rtmhr_evaluation.py : parameter-space generation
                 (run_all_simulations), per-trial execution and failure
                 handling (run_single_simulation), per-trial CSV rollup
                 (analyze_results) and protocol-level summary statistics
                 (generate_summary_stats, pandas mean/std with ddof = 1).
* ScalingCmp   — scaling_comparison.py : the pairwise winner rule of main.
* ScalingTest  — scaling_test.py : the free-text metric-line parser of
                 run_simulation and the surrounding sweep loop of main.

Python floats are modelled as rationals; pandas sample standard deviation is
modelled through the sample variance, with Option.none standing for the NaN
produced at sample count 1 (std = 0 exactly when the variance is some 0).
Python strings handled by the free-text parser are modelled as lists of
characters, with the repository's uses of split, strip, replace and substring
membership transcribed directly.
-/

namespace RtmhrEval

/-- Parameter tuple of one trial, as built by run_all_simulations:
(protocol, nodes, speed, traffic, seed). -/
structure TrialSpec where
  protocol : String
  nodes : Nat
  speed : Nat
  traffic : String
  seed : Nat
deriving DecidableEq, Repr

/-- Nested parameter-combination loops of run_all_simulations: protocol
outermost, then node count, speed, traffic load, and seed innermost. -/
def generateParams (protocols : List String) (nodeCounts : List Nat)
    (speeds : List Nat) (traffics : List String) (seeds : List Nat) :
    List TrialSpec :=
  protocols.flatMap fun p =>
    nodeCounts.flatMap fun n =>
      speeds.flatMap fun s =>
        traffics.flatMap fun t =>
          seeds.map fun k => ⟨p, n, s, t, k⟩

/-- Outcome of the external simulator process as observed by
run_single_simulation: a completed subprocess.run with a return code and
captured streams, a subprocess.TimeoutExpired, or any other launch-level
exception. -/
inductive ExecOutcome where
  | completed (returncode : Int) (stdout stderr : String)
  | timedOut
  | procError (msg : String)
deriving DecidableEq

/-- Result file name produced for a trial, as in run_single_simulation. -/
def resultFileName (sp : TrialSpec) : String :=
  "results_" ++ sp.protocol ++ "_" ++ toString sp.nodes ++ "_" ++
    toString sp.speed ++ "_" ++ sp.traffic ++ "_" ++ toString sp.seed ++ ".csv"

/-- Body of run_single_simulation: a zero return code yields the result file
name; a non-zero return code, a timeout, or a launch error each return None. -/
def runSingleSimulation (sp : TrialSpec) (out : ExecOutcome) : Option String :=
  match out with
  | .completed rc _ _ => if rc ≠ 0 then none else some (resultFileName sp)
  | .timedOut => none
  | .procError _ => none

/-- Failure classes of run_single_simulation, one per diagnostic branch:
the returncode check, the TimeoutExpired handler, and the generic
exception handler. -/
inductive FailureReason where
  | timeout
  | nonzeroExit
  | processError
deriving DecidableEq

/-- Diagnostic classification of a failed execution, following the three
distinct print branches of run_single_simulation; none for a successful run. -/
def failureClass (out : ExecOutcome) : Option FailureReason :=
  match out with
  | .completed rc _ _ => if rc ≠ 0 then some .nonzeroExit else none
  | .timedOut => some .timeout
  | .procError _ => some .processError

/-- Mapping of run_single_simulation over a parameter list, as done by the
executor.map call of run_all_simulations; env gives each trial's external
outcome. -/
def runAllSimulations (env : TrialSpec → ExecOutcome)
    (params : List TrialSpec) : List (Option String) :=
  params.map fun p => runSingleSimulation p (env p)

/-- Filtering of successful results in run_all_simulations:
completed_results keeps exactly the non-None entries. -/
def completedResults (env : TrialSpec → ExecOutcome)
    (params : List TrialSpec) : List String :=
  (runAllSimulations env params).filterMap id

/-- One row of a per-trial CSV result file, per the schema written by the
generated simulation script (numeric columns only; the two address columns
play no role in analyze_results). -/
structure FlowRow where
  txPackets : Nat
  rxPackets : Nat
  txBytes : Nat
  rxBytes : Nat
  delaySum : ℚ
  throughput : ℚ
  pdr : ℚ
  avgDelay : ℚ
deriving DecidableEq

/-- Arithmetic mean of a list of rationals, as computed by pandas mean. -/
def listMean (l : List ℚ) : ℚ := l.sum / l.length

/-- Per-trial metrics dictionary built by analyze_results for one result
file: the factor levels recovered from the file name, the per-flow column
means, and the two flow counts. -/
structure TrialRecord where
  protocol : String
  nodes : Nat
  speed : Nat
  traffic : String
  seed : Nat
  avg_throughput : ℚ
  avg_delay : ℚ
  avg_pdr : ℚ
  total_flows : Nat
  successful_flows : Nat
deriving DecidableEq

/-- Rollup of one trial's flow rows in analyze_results: an empty frame is
skipped (continue), otherwise one metrics record is appended with the column
means of Throughput, AvgDelay and PDR, the row count, and the count of rows
with positive PDR. -/
def analyzeOne (sp : TrialSpec) (rows : List FlowRow) : Option TrialRecord :=
  if rows.isEmpty then none
  else some
    { protocol := sp.protocol
      nodes := sp.nodes
      speed := sp.speed
      traffic := sp.traffic
      seed := sp.seed
      avg_throughput := listMean (rows.map FlowRow.throughput)
      avg_delay := listMean (rows.map FlowRow.avgDelay)
      avg_pdr := listMean (rows.map FlowRow.pdr)
      total_flows := rows.length
      successful_flows := (rows.filter fun r => 0 < r.pdr).length }

/-- Sample variance with ddof = 1, the square of the pandas std computed by
the agg step of generate_summary_stats before rounding: none models the NaN
arising from the 0/0 division at sample count 1 (and below). -/
def sampleVar (l : List ℚ) : Option ℚ :=
  if l.length ≤ 1 then none
  else some ((l.map fun x => (x - listMean l) ^ 2).sum / ((l.length : ℚ) - 1))

/-- Rounding of a rational to the nearest integer with ties to even, the
rule numpy documents for its rounding and the exact-arithmetic idealization
of the float rounding used by the .round call of generate_summary_stats. -/
def roundHalfEven (q : ℚ) : ℤ :=
  let f := ⌊q⌋
  if q - f < 1 / 2 then f
  else if (1 : ℚ) / 2 < q - f then f + 1
  else if f % 2 = 0 then f else f + 1

/-- Rounding to 4 decimal places, the .round(4) applied to the whole
aggregated table in generate_summary_stats. -/
def round4 (q : ℚ) : ℚ := (roundHalfEven (q * 10000) : ℚ) / 10000

/-- Value shown in the emitted std column for a variance v: the 4-decimal
half-even rounding of the square root of v, computed exactly by integer
arithmetic (the square root itself is irrational in general, but its
rounding to 4 decimals is determined by comparing v·10⁸ with half-integer
squares, with the exact tie going to the even digit). Applied only to
non-negative variances. -/
def sqrtRound4 (v : ℚ) : ℚ :=
  let x : ℚ := v * 10 ^ 8
  let k : ℤ := (Nat.sqrt ⌊x⌋.toNat : ℤ)
  let r : ℤ :=
    if x < ((k : ℚ) + 1 / 2) ^ 2 then k
    else if ((k : ℚ) + 1 / 2) ^ 2 < x then k + 1
    else if k % 2 = 0 then k else k + 1
  (r : ℚ) / 10 ^ 4

/-- Group keys of the groupby('protocol') aggregation, in first-appearance
order. -/
def protocolKeys (rs : List TrialRecord) : List String :=
  (rs.map TrialRecord.protocol).dedup

/-- Members of one protocol group. -/
def protocolGroup (rs : List TrialRecord) (k : String) : List TrialRecord :=
  rs.filter fun r => r.protocol = k

/-- One output row of the protocol_comparison table of
generate_summary_stats, after the .round(4): the 4-decimal-rounded mean and
std of avg_throughput, avg_delay and avg_pdr for a protocol group; a std
field is none when the emitted cell is NaN (rounding preserves NaN). -/
structure AggEntry where
  protocol : String
  throughputMean : ℚ
  throughputStd : Option ℚ
  delayMean : ℚ
  delayStd : Option ℚ
  pdrMean : ℚ
  pdrStd : Option ℚ
deriving DecidableEq

/-- Protocol-level aggregation of generate_summary_stats:
df.groupby('protocol').agg with mean and std of the three tracked metrics,
followed by .round(4) on every cell — round4 on the means and the rounded
square root of the sample variance (sqrtRound4) in the std columns. -/
def protocolStats (rs : List TrialRecord) : List AggEntry :=
  (protocolKeys rs).map fun k =>
    let g := protocolGroup rs k
    { protocol := k
      throughputMean := round4 (listMean (g.map TrialRecord.avg_throughput))
      throughputStd :=
        (sampleVar (g.map TrialRecord.avg_throughput)).map sqrtRound4
      delayMean := round4 (listMean (g.map TrialRecord.avg_delay))
      delayStd := (sampleVar (g.map TrialRecord.avg_delay)).map sqrtRound4
      pdrMean := round4 (listMean (g.map TrialRecord.avg_pdr))
      pdrStd := (sampleVar (g.map TrialRecord.avg_pdr)).map sqrtRound4 }

/-- Sample specification used by concrete evaluations. -/
def spec0 : TrialSpec := ⟨"rtmhr", 30, 5, "low", 1⟩

/-- Sample flow row used by concrete evaluations. -/
def row3 : FlowRow :=
  { txPackets := 3, rxPackets := 3, txBytes := 3072, rxBytes := 3072
    delaySum := 1, throughput := 5, pdr := 1, avgDelay := 1 / 2 }

/-- Sample per-trial record used by concrete evaluations. -/
def rec1 : TrialRecord :=
  { protocol := "rtmhr", nodes := 30, speed := 5, traffic := "low", seed := 1
    avg_throughput := 5, avg_delay := 2, avg_pdr := 95
    total_flows := 5, successful_flows := 5 }

end RtmhrEval

namespace ScalingCmp

/-- Per-protocol metrics dictionary parsed by run_comparison in
scaling_comparison.py. -/
structure ProtoStats where
  pdr : ℚ
  throughput : ℚ
  delay : ℚ
  tx_packets : Nat
  rx_packets : Nat
deriving DecidableEq

/-- Outcome of the winner decision in main of scaling_comparison.py: the
first record's protocol (RT-MHR there), the second record's protocol (AODV),
or a tie. -/
inductive Winner where
  | first
  | second
  | tie
deriving DecidableEq

/-- Tolerance used by the winner rule in main of scaling_comparison.py. -/
def epsTol : ℚ := 1 / 10

/-- Winner rule of main in scaling_comparison.py, transcribed branch for
branch: when the PDR difference is below the tolerance the throughput is
compared (again with the tolerance, otherwise higher throughput wins), and
when the PDR difference reaches the tolerance the higher PDR wins. Delay is
never consulted. -/
def determineWinner (x y : ProtoStats) : Winner :=
  if |x.pdr - y.pdr| < epsTol then
    if |x.throughput - y.throughput| < epsTol then .tie
    else if x.throughput > y.throughput then .first
    else .second
  else if x.pdr > y.pdr then .first
  else .second

/-- Protocol identity named by a winner value, given the identities carried
by the first and the second compared record; none for a tie. -/
def resolveWinner {α : Type} (w : Winner) (p q : α) : Option α :=
  match w with
  | .first => some p
  | .second => some q
  | .tie => none

/-- Branch of the winner rule that decides a comparison. -/
inductive Tier where
  | pdrTier
  | throughputTier
  | tieTier
deriving DecidableEq

/-- Deciding branch of determineWinner for a pair of records: the PDR test,
the throughput test, or the final tie branch. -/
def decidingTier (x y : ProtoStats) : Tier :=
  if |x.pdr - y.pdr| < epsTol then
    if |x.throughput - y.throughput| < epsTol then .tieTier
    else .throughputTier
  else .pdrTier

end ScalingCmp

namespace ScalingTest

/-- Python strings handled by the free-text parser, modelled as lists of
characters. -/
abbrev PyStr := List Char

/-- Python str.split(sep) for a one-character separator: the pieces between
occurrences of the separator, empty pieces included. The result is always
non-empty. -/
def splitOnChar (sep : Char) : PyStr → List PyStr
  | [] => [[]]
  | c :: rest =>
    let r := splitOnChar sep rest
    if c = sep then [] :: r
    else
      match r with
      | [] => [[c]]
      | h :: tl => (c :: h) :: tl

/-- Python str.strip(): leading and trailing whitespace removed. -/
def pyStrip (s : PyStr) : PyStr :=
  ((s.dropWhile Char.isWhitespace).reverse.dropWhile Char.isWhitespace).reverse

/-- Helper for removeAll, structurally recursive on a fuel argument so that
it evaluates by plain reduction; one unit of fuel is spent per examined
position, and a non-empty matched pattern always advances by at least one
character, so fuel equal to the string length never runs out. -/
def removeAllFuel (pat : PyStr) : Nat → PyStr → PyStr
  | 0, s => s
  | _ + 1, [] => []
  | fuel + 1, c :: rest =>
    if pat ≠ [] ∧ pat.isPrefixOf (c :: rest) then
      removeAllFuel pat fuel (List.drop pat.length (c :: rest))
    else
      c :: removeAllFuel pat fuel rest

/-- Python str.replace(pat, ""): every non-overlapping occurrence of the
pattern removed, scanning left to right. -/
def removeAll (pat s : PyStr) : PyStr := removeAllFuel pat s.length s

/-- Numeric value of a digit string. -/
def digitsToNat (ds : List Char) : Nat :=
  ds.foldl (fun acc c => 10 * acc + (c.toNat - 48)) 0

/-- Python int(str): optional surrounding whitespace, an optional sign, and
a non-empty run of decimal digits; anything else raises and is modelled as
none. -/
def parseIntPy (s : PyStr) : Option Int :=
  let t := pyStrip s
  match t with
  | [] => none
  | c :: rest =>
    if c = '-' then
      if rest ≠ [] ∧ rest.all Char.isDigit then some (-(digitsToNat rest : Int))
      else none
    else if c = '+' then
      if rest ≠ [] ∧ rest.all Char.isDigit then some (digitsToNat rest : Int)
      else none
    else if (c :: rest).all Char.isDigit then some (digitsToNat (c :: rest) : Int)
    else none

/-- Fractional part value of the digits after the decimal point. -/
def fracValue (ds : List Char) : ℚ :=
  (digitsToNat ds : ℚ) / ((10 : ℚ) ^ ds.length)

/-- Unsigned decimal literal: digits with at most one decimal point and at
least one digit overall (the grammar of the simulator's numeric output;
a non-matching string is the ValueError case, modelled as none). -/
def parseUnsignedFloat (t : PyStr) : Option ℚ :=
  match splitOnChar '.' t with
  | [ip] =>
    if ip ≠ [] ∧ ip.all Char.isDigit then some (digitsToNat ip : ℚ) else none
  | [ip, fp] =>
    if (ip.all Char.isDigit ∧ fp.all Char.isDigit) ∧ (ip ≠ [] ∨ fp ≠ []) then
      some ((digitsToNat ip : ℚ) + fracValue fp)
    else none
  | _ => none

/-- Python float(str) on the metric values at hand: optional surrounding
whitespace, optional sign, decimal literal; a malformed value is none. -/
def parseFloatPy (s : PyStr) : Option ℚ :=
  let t := pyStrip s
  match t with
  | '-' :: rest => (parseUnsignedFloat rest).map Neg.neg
  | '+' :: rest => parseUnsignedFloat rest
  | _ => parseUnsignedFloat t

/-- Python substring membership, pat in s: some suffix of s starts with the
pattern. -/
def hasInfix (pat : PyStr) : PyStr → Bool
  | [] => pat.isEmpty
  | c :: rest => pat.isPrefixOf (c :: rest) || hasInfix pat rest

/-- Recognized metric label for the PDR line. -/
def pdrLabel : PyStr := "Packet Delivery Ratio:".toList

/-- Recognized metric label for the throughput line. -/
def throughputLabel : PyStr := "Average Throughput:".toList

/-- Recognized metric label for the delay line. -/
def delayLabel : PyStr := "Average Delay:".toList

/-- Recognized metric label for the transmitted-packets line. -/
def txLabel : PyStr := "Total Tx Packets:".toList

/-- Recognized metric label for the received-packets line. -/
def rxLabel : PyStr := "Total Rx Packets:".toList

/-- Percent unit suffix stripped from PDR values. -/
def pctPat : PyStr := "%".toList

/-- Throughput unit suffix stripped from throughput values. -/
def kbpsPat : PyStr := "kbps".toList

/-- Delay unit suffix stripped from delay values. -/
def msPat : PyStr := "ms".toList

/-- Metrics dictionary filled by run_simulation in scaling_test.py; a field
is none while its key is absent from the dictionary. -/
structure Metrics where
  pdr : Option ℚ
  throughput : Option ℚ
  delay : Option ℚ
  tx_packets : Option Int
  rx_packets : Option Int
deriving DecidableEq

/-- Empty metrics dictionary at the start of the parse loop. -/
def initMetrics : Metrics :=
  { pdr := none, throughput := none, delay := none
    tx_packets := none, rx_packets := none }

/-- Text between the first and second colon of a line, stripped — the value
part line.split(':')[1].strip() read by every recognized branch. -/
def valuePart (line : PyStr) : PyStr :=
  pyStrip ((splitOnChar ':' line).getD 1 [])

/-- Handling of one output line by the parse loop of run_simulation:
membership tests of the five recognized labels in source order, value
extraction with unit stripping, and numeric conversion whose failure is the
ValueError carrying the offending text. Unrecognized lines leave the
dictionary unchanged. -/
def processLine (m : Metrics) (line : PyStr) : Except PyStr Metrics :=
  if hasInfix pdrLabel line then
    match parseFloatPy (removeAll pctPat (valuePart line)) with
    | some v => .ok { m with pdr := some v }
    | none => .error (removeAll pctPat (valuePart line))
  else if hasInfix throughputLabel line then
    match parseFloatPy (removeAll kbpsPat (valuePart line)) with
    | some v => .ok { m with throughput := some v }
    | none => .error (removeAll kbpsPat (valuePart line))
  else if hasInfix delayLabel line then
    match parseFloatPy (removeAll msPat (valuePart line)) with
    | some v => .ok { m with delay := some v }
    | none => .error (removeAll msPat (valuePart line))
  else if hasInfix txLabel line then
    match parseIntPy (valuePart line) with
    | some v => .ok { m with tx_packets := some v }
    | none => .error (valuePart line)
  else if hasInfix rxLabel line then
    match parseIntPy (valuePart line) with
    | some v => .ok { m with rx_packets := some v }
    | none => .error (valuePart line)
  else .ok m

/-- Parse loop over the output lines, threading the metrics dictionary; the
first conversion failure aborts the loop with the offending text, exactly as
the raised ValueError does. -/
def parseMetricsAcc (m : Metrics) : List PyStr → Except PyStr Metrics
  | [] => .ok m
  | l :: ls =>
    match processLine m l with
    | .ok m2 => parseMetricsAcc m2 ls
    | .error e => .error e

/-- Parse of a full trial output from the empty dictionary. -/
def parseMetricsE (lines : List PyStr) : Except PyStr Metrics :=
  parseMetricsAcc initMetrics lines

/-- Outcome of the external simulator process as observed by run_simulation
in scaling_test.py, with the captured standard output already split into
lines. -/
inductive SimOutcome where
  | completed (returncode : Int) (stdoutLines : List PyStr) (stderr : PyStr)
  | timedOut
  | procError (msg : PyStr)

/-- Body of run_simulation in scaling_test.py: a non-zero return code, a
timeout, a launch error, or a parse failure (the caught ValueError) each
return None; otherwise the metrics dictionary is returned. -/
def runSimulation (out : SimOutcome) : Option Metrics :=
  match out with
  | .completed rc lines _ =>
    if rc ≠ 0 then none
    else
      match parseMetricsE lines with
      | .ok m => some m
      | .error _ => none
  | .timedOut => none
  | .procError _ => none

/-- Truthiness of the metrics dictionary, as tested by the if after
run_simulation in main: the empty dictionary is falsy. -/
def metricsNonempty (m : Metrics) : Bool :=
  m.pdr.isSome || m.throughput.isSome || m.delay.isSome ||
    m.tx_packets.isSome || m.rx_packets.isSome

/-- Result collection of the sweep loop in main of scaling_test.py: an entry
is appended for a network size exactly when run_simulation returned a truthy
metrics dictionary for it. -/
def collectResults (env : Nat → SimOutcome) (sizes : List Nat) :
    List (Nat × Metrics) :=
  sizes.filterMap fun n =>
    match runSimulation (env n) with
    | some m => if metricsNonempty m then some (n, m) else none
    | none => none

/-- Decision of whether a line is a recognized metric line whose value text
fails numeric conversion after unit stripping, following the dispatch order
of processLine. -/
def badMetricLine (line : PyStr) : Bool :=
  if hasInfix pdrLabel line then
    (parseFloatPy (removeAll pctPat (valuePart line))).isNone
  else if hasInfix throughputLabel line then
    (parseFloatPy (removeAll kbpsPat (valuePart line))).isNone
  else if hasInfix delayLabel line then
    (parseFloatPy (removeAll msPat (valuePart line))).isNone
  else if hasInfix txLabel line then
    (parseIntPy (valuePart line)).isNone
  else if hasInfix rxLabel line then
    (parseIntPy (valuePart line)).isNone
  else false

/-- Stripped value text of a recognized line, as named by the conversion
error for that line. -/
def strippedValue (line : PyStr) : PyStr :=
  if hasInfix pdrLabel line then removeAll pctPat (valuePart line)
  else if hasInfix throughputLabel line then removeAll kbpsPat (valuePart line)
  else if hasInfix delayLabel line then removeAll msPat (valuePart line)
  else valuePart line

/-- Sample malformed PDR line used by concrete evaluations. -/
def badLine0 : PyStr := "Packet Delivery Ratio: abc%".toList

/-- Metrics dictionary produced by parsing goodLine0. -/
def m0 : Metrics := { initMetrics with pdr := some (191 / 2) }

/-- Sample well-formed PDR line used by concrete evaluations. -/
def goodLine0 : PyStr := "Packet Delivery Ratio: 95.5%".toList

/-- Second sample well-formed PDR line used by concrete evaluations. -/
def goodLine1 : PyStr := "Packet Delivery Ratio: 50%".toList

/-- Sample environment for the sweep loop: size 3 produces a malformed PDR
line, every other size a well-formed one. -/
def envW (n : Nat) : SimOutcome :=
  if n = 3 then .completed 0 [badLine0] []
  else .completed 0 [goodLine0] []

end ScalingTest

namespace ListAux

theorem flatMap_length_const {α β : Type} (l : List α) (f : α → List β)
    (m : Nat) (h : ∀ x, (f x).length = m) :
    (l.flatMap f).length = l.length * m := by
  induction l with
  | nil => simp
  | cons a tl ih =>
    simp only [List.flatMap_cons, List.length_append, h a, ih, List.length_cons]
    ring

theorem getElem?_flatMap_const {α β : Type} (l : List α) (f : α → List β)
    (m : Nat) (hm : ∀ x, (f x).length = m) (i j : Nat) (hj : j < m) :
    (l.flatMap f)[i * m + j]? = l[i]?.bind fun x => (f x)[j]? := by
  induction l generalizing i with
  | nil => simp
  | cons a tl ih =>
    cases i with
    | zero =>
      rw [List.flatMap_cons, List.getElem?_append, if_pos (by rw [hm a]; omega)]
      simp
    | succ i =>
      have h2 : (f a).length ≤ (i + 1) * m + j := by
        rw [hm a, Nat.succ_mul]; omega
      have h1 : (i + 1) * m + j - (f a).length = i * m + j := by
        rw [hm a, Nat.succ_mul]; omega
      rw [List.flatMap_cons, List.getElem?_append_right h2, h1, ih]
      simp

theorem nodup_flatMap_of {α β : Type} (l : List α) (f : α → List β)
    (hl : l.Nodup) (hf : ∀ x ∈ l, (f x).Nodup)
    (hdet : ∀ x y b, b ∈ f x → b ∈ f y → x = y) : (l.flatMap f).Nodup := by
  rw [List.nodup_flatMap]
  refine ⟨hf, hl.imp ?_⟩
  intro a b hab
  intro x hxa hxb
  exact absurd (hdet a b x hxa hxb) hab

theorem mixedRadixBound (a j b m : Nat) (ha : a < b) (hj : j < m) :
    a * m + j < b * m := by
  calc a * m + j < a * m + m := by omega
  _ = (a + 1) * m := by ring
  _ ≤ b * m := Nat.mul_le_mul_right m ha

theorem dedup_replicate {α : Type} [DecidableEq α] (a : α) (n : Nat)
    (h : 1 ≤ n) : (List.replicate n a).dedup = [a] := by
  induction n with
  | zero => omega
  | succ k ih =>
    cases k with
    | zero => simp
    | succ k2 =>
      rw [List.replicate_succ, List.dedup_cons_of_mem (by simp)]
      exact ih (by omega)

end ListAux

namespace RtmhrEval

theorem seedBlock_length (p : String) (n s : Nat) (t : String) (ks : List Nat) :
    (ks.map fun k => (⟨p, n, s, t, k⟩ : TrialSpec)).length = ks.length := by
  simp

theorem trafficBlock_length (p : String) (n s : Nat) (ts : List String)
    (ks : List Nat) :
    ((ts.flatMap fun t => ks.map fun k => (⟨p, n, s, t, k⟩ : TrialSpec))).length
      = ts.length * ks.length :=
  ListAux.flatMap_length_const _ _ _ (fun t => seedBlock_length p n s t ks)

theorem speedBlock_length (p : String) (n : Nat) (ss : List Nat)
    (ts : List String) (ks : List Nat) :
    ((ss.flatMap fun s => ts.flatMap fun t =>
        ks.map fun k => (⟨p, n, s, t, k⟩ : TrialSpec))).length
      = ss.length * (ts.length * ks.length) :=
  ListAux.flatMap_length_const _ _ _ (fun s => trafficBlock_length p n s ts ks)

theorem nodesBlock_length (p : String) (ns ss : List Nat) (ts : List String)
    (ks : List Nat) :
    ((ns.flatMap fun n => ss.flatMap fun s => ts.flatMap fun t =>
        ks.map fun k => (⟨p, n, s, t, k⟩ : TrialSpec))).length
      = ns.length * (ss.length * (ts.length * ks.length)) :=
  ListAux.flatMap_length_const _ _ _ (fun n => speedBlock_length p n ss ts ks)

theorem generateParams_length (ps : List String) (ns ss : List Nat)
    (ts : List String) (ks : List Nat) :
    (generateParams ps ns ss ts ks).length
      = ps.length * ns.length * ss.length * ts.length * ks.length := by
  unfold generateParams
  rw [ListAux.flatMap_length_const _ _ _ (fun p => nodesBlock_length p ns ss ts ks)]
  ring

theorem mem_seedBlock {b : TrialSpec} {p : String} {n s : Nat} {t : String}
    {ks : List Nat}
    (h : b ∈ ks.map fun k => (⟨p, n, s, t, k⟩ : TrialSpec)) :
    b.protocol = p ∧ b.nodes = n ∧ b.speed = s ∧ b.traffic = t := by
  simp only [List.mem_map] at h
  obtain ⟨k, _, rfl⟩ := h
  exact ⟨rfl, rfl, rfl, rfl⟩

theorem mem_trafficBlock {b : TrialSpec} {p : String} {n s : Nat}
    {ts : List String} {ks : List Nat}
    (h : b ∈ ts.flatMap fun t => ks.map fun k => (⟨p, n, s, t, k⟩ : TrialSpec)) :
    b.protocol = p ∧ b.nodes = n ∧ b.speed = s := by
  obtain ⟨t, _, hm⟩ := List.mem_flatMap.mp h
  exact ⟨(mem_seedBlock hm).1, (mem_seedBlock hm).2.1, (mem_seedBlock hm).2.2.1⟩

theorem mem_speedBlock {b : TrialSpec} {p : String} {n : Nat} {ss : List Nat}
    {ts : List String} {ks : List Nat}
    (h : b ∈ ss.flatMap fun s => ts.flatMap fun t =>
        ks.map fun k => (⟨p, n, s, t, k⟩ : TrialSpec)) :
    b.protocol = p ∧ b.nodes = n := by
  obtain ⟨s, _, hm⟩ := List.mem_flatMap.mp h
  exact ⟨(mem_trafficBlock hm).1, (mem_trafficBlock hm).2.1⟩

theorem mem_nodesBlock {b : TrialSpec} {p : String} {ns ss : List Nat}
    {ts : List String} {ks : List Nat}
    (h : b ∈ ns.flatMap fun n => ss.flatMap fun s => ts.flatMap fun t =>
        ks.map fun k => (⟨p, n, s, t, k⟩ : TrialSpec)) :
    b.protocol = p := by
  obtain ⟨n, _, hm⟩ := List.mem_flatMap.mp h
  exact (mem_speedBlock hm).1

theorem generateParams_nodup (ps : List String) (ns ss : List Nat)
    (ts : List String) (ks : List Nat) (hp : ps.Nodup) (hn : ns.Nodup)
    (hs : ss.Nodup) (ht : ts.Nodup) (hk : ks.Nodup) :
    (generateParams ps ns ss ts ks).Nodup := by
  unfold generateParams
  apply ListAux.nodup_flatMap_of _ _ hp
  · intro p _
    apply ListAux.nodup_flatMap_of _ _ hn
    · intro n _
      apply ListAux.nodup_flatMap_of _ _ hs
      · intro s _
        apply ListAux.nodup_flatMap_of _ _ ht
        · intro t _
          apply List.Nodup.map _ hk
          intro k1 k2 he
          exact congrArg TrialSpec.seed he
        · intro t1 t2 b hb1 hb2
          exact ((mem_seedBlock hb1).2.2.2).symm.trans (mem_seedBlock hb2).2.2.2
      · intro s1 s2 b hb1 hb2
        exact ((mem_trafficBlock hb1).2.2).symm.trans (mem_trafficBlock hb2).2.2
    · intro n1 n2 b hb1 hb2
      exact ((mem_speedBlock hb1).2).symm.trans (mem_speedBlock hb2).2
  · intro p1 p2 b hb1 hb2
    exact (mem_nodesBlock hb1).symm.trans (mem_nodesBlock hb2)

theorem generateParams_getElem (ps : List String) (ns ss : List Nat)
    (ts : List String) (ks : List Nat) (ip jn js jt jk : Nat)
    (hip : ip < ps.length) (hjn : jn < ns.length) (hjs : js < ss.length)
    (hjt : jt < ts.length) (hjk : jk < ks.length) :
    (generateParams ps ns ss ts ks)[(((ip * ns.length + jn) * ss.length + js)
        * ts.length + jt) * ks.length + jk]?
      = some ⟨ps[ip], ns[jn], ss[js], ts[jt], ks[jk]⟩ := by
  have b3 : jt * ks.length + jk < ts.length * ks.length :=
    ListAux.mixedRadixBound jt jk ts.length ks.length hjt hjk
  have b2 : js * (ts.length * ks.length) + (jt * ks.length + jk)
      < ss.length * (ts.length * ks.length) :=
    ListAux.mixedRadixBound js _ ss.length _ hjs b3
  have b1 : jn * (ss.length * (ts.length * ks.length))
        + (js * (ts.length * ks.length) + (jt * ks.length + jk))
      < ns.length * (ss.length * (ts.length * ks.length)) :=
    ListAux.mixedRadixBound jn _ ns.length _ hjn b2
  have hidx : (((ip * ns.length + jn) * ss.length + js) * ts.length + jt)
        * ks.length + jk
      = ip * (ns.length * (ss.length * (ts.length * ks.length)))
        + (jn * (ss.length * (ts.length * ks.length))
          + (js * (ts.length * ks.length) + (jt * ks.length + jk))) := by
    ring
  unfold generateParams
  rw [hidx,
    ListAux.getElem?_flatMap_const _ _ _ (fun p => nodesBlock_length p ns ss ts ks) _ _ b1,
    List.getElem?_eq_getElem hip]
  simp only [Option.some_bind]
  rw [ListAux.getElem?_flatMap_const _ _ _
      (fun n => speedBlock_length ps[ip] n ss ts ks) _ _ b2,
    List.getElem?_eq_getElem hjn]
  simp only [Option.some_bind]
  rw [ListAux.getElem?_flatMap_const _ _ _
      (fun s => trafficBlock_length ps[ip] ns[jn] s ts ks) _ _ b3,
    List.getElem?_eq_getElem hjs]
  simp only [Option.some_bind]
  rw [ListAux.getElem?_flatMap_const _ _ _
      (fun t => seedBlock_length ps[ip] ns[jn] ss[js] t ks) _ _ hjk]
  rw [List.getElem?_eq_getElem hjt]
  simp only [Option.some_bind]
  rw [List.getElem?_map, List.getElem?_eq_getElem hjk]
  simp

end RtmhrEval

namespace RtmhrEval

theorem runSingle_completed_zero (sp : TrialSpec) (out err : String) :
    runSingleSimulation sp (.completed 0 out err) = some (resultFileName sp) := by
  simp [runSingleSimulation]

theorem runSingle_completed_nonzero (sp : TrialSpec) (rc : Int)
    (out err : String) (h : rc ≠ 0) :
    runSingleSimulation sp (.completed rc out err) = none := by
  simp [runSingleSimulation, h]

theorem failureClass_completed_zero (out err : String) :
    failureClass (.completed 0 out err) = none := by
  simp [failureClass]

theorem failureClass_completed_nonzero (rc : Int) (out err : String)
    (h : rc ≠ 0) :
    failureClass (.completed rc out err) = some .nonzeroExit := by
  simp [failureClass, h]

theorem completedResults_eq (env : TrialSpec → ExecOutcome)
    (params : List TrialSpec) :
    completedResults env params
      = (params.filter fun q => (failureClass (env q)).isNone).map resultFileName := by
  induction params with
  | nil => rfl
  | cons q tl ih =>
    simp only [completedResults, runAllSimulations] at ih ⊢
    simp only [List.map_cons, List.filterMap_cons, List.filter_cons]
    cases henv : env q with
    | completed rc out err =>
      by_cases hrc : rc = 0
      · subst hrc
        simp only [henv, runSingle_completed_zero, failureClass_completed_zero,
          Option.isNone_none, id_eq, if_true, List.map_cons]
        simp [ih]
      · simp only [henv, runSingle_completed_nonzero _ _ _ _ hrc,
          failureClass_completed_nonzero _ _ _ hrc, Option.isNone_some]
        simp [ih]
    | timedOut =>
      simp only [runSingleSimulation, failureClass, Option.isNone_some,
        id_eq] at ih ⊢
      simp only [ne_eq, ite_not] at ih
      simp [ih]
    | procError m =>
      simp only [runSingleSimulation, failureClass, Option.isNone_some,
        id_eq] at ih ⊢
      simp only [ne_eq, ite_not] at ih
      simp [ih]

/-- C5: for any factor-level lists that are duplicate-free within each list,
the generated parameter space has exactly p·n·s·t·k members, contains no
duplicate tuples, and is enumerated in the fixed nested order with protocol
outermost and seed innermost: the element at mixed-radix position
(((ip·n + jn)·s + js)·t + jt)·k + jk is the tuple of the ip-th protocol,
jn-th node count, js-th speed, jt-th traffic load and jk-th seed. -/
theorem generateParams_cartesian_product (ps : List String) (ns ss : List Nat)
    (ts : List String) (ks : List Nat) (hp : ps.Nodup) (hn : ns.Nodup)
    (hs : ss.Nodup) (ht : ts.Nodup) (hk : ks.Nodup) :
    (generateParams ps ns ss ts ks).length
        = ps.length * ns.length * ss.length * ts.length * ks.length
    ∧ (generateParams ps ns ss ts ks).Nodup
    ∧ ∀ ip jn js jt jk (hip : ip < ps.length) (hjn : jn < ns.length)
        (hjs : js < ss.length) (hjt : jt < ts.length) (hjk : jk < ks.length),
        (generateParams ps ns ss ts ks)[(((ip * ns.length + jn) * ss.length + js)
            * ts.length + jt) * ks.length + jk]?
          = some ⟨ps[ip], ns[jn], ss[js], ts[jt], ks[jk]⟩ :=
  ⟨generateParams_length ps ns ss ts ks,
   generateParams_nodup ps ns ss ts ks hp hn hs ht hk,
   fun ip jn js jt jk hip hjn hjs hjt hjk =>
     generateParams_getElem ps ns ss ts ks ip jn js jt jk hip hjn hjs hjt hjk⟩

/-- Witness for C5 at concrete factor lists of sizes 2, 2, 2, 1, 2. -/
theorem generateParams_cartesian_product_witness :
    (generateParams ["rtmhr", "aodv"] [30, 50] [0, 5] ["low"] [1, 2]).length
        = 2 * 2 * 2 * 1 * 2
    ∧ (generateParams ["rtmhr", "aodv"] [30, 50] [0, 5] ["low"] [1, 2]).Nodup
    ∧ (generateParams ["rtmhr", "aodv"] [30, 50] [0, 5]
        ["low"] [1, 2])[(((1 * 2 + 1) * 2 + 0) * 1 + 0) * 2 + 1]?
        = some ⟨"aodv", 50, 0, "low", 2⟩ := by
  have h := generateParams_cartesian_product ["rtmhr", "aodv"] [30, 50] [0, 5]
    ["low"] [1, 2] (by decide) (by decide) (by decide) (by decide) (by decide)
  exact ⟨h.1, h.2.1,
    h.2.2 1 1 0 0 1 (by decide) (by decide) (by decide) (by decide) (by decide)⟩

/-- C4 counterexample: with an empty protocol list, parameter generation
silently yields the empty sweep of zero trials; the generation code has no
error path at all, so no explicit configuration error is raised. -/
theorem generateParams_empty_counterexample :
    generateParams [] [30] [0] ["low"] [1] = []
    ∧ (generateParams [] [30] [0] ["low"] [1]).length = 0 :=
  ⟨rfl, rfl⟩

/-- C4 amended: an empty factor-level list makes parameter generation
silently produce the empty sweep (zero trials, no error); with all lists
non-empty the sweep is non-empty. -/
theorem generateParams_empty_behaviour :
    (∀ (ps : List String) (ns ss : List Nat) (ts : List String)
        (ks : List Nat), ps = [] ∨ ns = [] ∨ ss = [] ∨ ts = [] ∨ ks = [] →
      generateParams ps ns ss ts ks = [])
    ∧ ∀ (ps : List String) (ns ss : List Nat) (ts : List String)
        (ks : List Nat), ps ≠ [] → ns ≠ [] → ss ≠ [] → ts ≠ [] → ks ≠ [] →
      generateParams ps ns ss ts ks ≠ [] := by
  constructor
  · intro ps ns ss ts ks h
    have hlen := generateParams_length ps ns ss ts ks
    rcases h with h | h | h | h | h <;> subst h <;>
      exact List.length_eq_zero.mp (by rw [hlen]; simp)
  · intro ps ns ss ts ks hp hn hs ht hk h
    have hlen := generateParams_length ps ns ss ts ks
    rw [h] at hlen
    have hpos : 0 < ps.length * ns.length * ss.length * ts.length * ks.length :=
      Nat.mul_pos (Nat.mul_pos (Nat.mul_pos
        (Nat.mul_pos (List.length_pos.mpr hp) (List.length_pos.mpr hn))
        (List.length_pos.mpr hs)) (List.length_pos.mpr ht))
        (List.length_pos.mpr hk)
    simp only [List.length_nil] at hlen
    omega

/-- Witness for C4: one empty list yields the empty sweep, all lists
non-empty yields a non-empty sweep. -/
theorem generateParams_empty_behaviour_witness :
    generateParams ["rtmhr"] [] [0] ["low"] [1] = []
    ∧ generateParams ["rtmhr"] [30] [0] ["low"] [1] ≠ [] :=
  ⟨generateParams_empty_behaviour.1 _ _ _ _ _ (Or.inr (Or.inl rfl)),
   generateParams_empty_behaviour.2 _ _ _ _ _ (by simp) (by simp) (by simp)
     (by simp) (by simp)⟩

/-- C7: any trial whose external process times out, exits non-zero, or fails
to launch makes run_single_simulation return the failure marker None (with
the corresponding diagnostic class), the collected results are exactly the
file names of the non-failing trials in sweep order (failed trials are
excluded), and the sweep maps over every parameter tuple to completion. -/
theorem runSingle_failure_tolerance :
    ∀ (env : TrialSpec → ExecOutcome) (params : List TrialSpec),
      (∀ p ∈ params, failureClass (env p) ≠ none →
        runSingleSimulation p (env p) = none)
      ∧ completedResults env params
          = (params.filter fun q => (failureClass (env q)).isNone).map resultFileName
      ∧ (runAllSimulations env params).length = params.length
      ∧ (∀ (rc : Int) (out err : String), rc ≠ 0 →
          failureClass (ExecOutcome.completed rc out err)
            = some FailureReason.nonzeroExit)
      ∧ failureClass ExecOutcome.timedOut = some FailureReason.timeout
      ∧ ∀ msg, failureClass (ExecOutcome.procError msg)
          = some FailureReason.processError := by
  intro env params
  refine ⟨?_, completedResults_eq env params, by simp [runAllSimulations],
    ?_, rfl, fun msg => rfl⟩
  · intro p _ hf
    cases henv : env p with
    | completed rc out err =>
      by_cases hrc : rc = 0
      · subst hrc
        rw [henv] at hf
        simp [failureClass] at hf
      · simp [runSingleSimulation, hrc]
    | timedOut => simp [runSingleSimulation]
    | procError m => simp [runSingleSimulation]
  · intro rc out err hrc
    simp [failureClass, hrc]

/-- Witness for C7: a sweep whose single trial times out collects nothing
and the trial returns None. -/
theorem runSingle_failure_tolerance_witness :
    runSingleSimulation spec0 ExecOutcome.timedOut = none
    ∧ completedResults (fun _ => ExecOutcome.timedOut) [spec0] = [] := by
  have h := runSingle_failure_tolerance (fun _ => ExecOutcome.timedOut) [spec0]
  refine ⟨h.1 spec0 (by simp) (by simp [failureClass]), ?_⟩
  rw [h.2.1]
  simp [failureClass]

/-- C2 amended: a trial whose CSV has at least one flow row yields exactly
one per-trial metrics record whose throughput, delay and pdr are the
arithmetic means of the per-flow Throughput, AvgDelay and PDR columns and
which carries the flow count and positive-PDR flow count; a CSV with zero
flow rows yields no record. Per-flow packet and byte counts are not summed
into the record (see the counterexample). -/
theorem analyzeOne_flow_rollup :
    (∀ (sp : TrialSpec) (rows : List FlowRow), rows ≠ [] →
      analyzeOne sp rows = some
        { protocol := sp.protocol, nodes := sp.nodes, speed := sp.speed,
          traffic := sp.traffic, seed := sp.seed,
          avg_throughput := (rows.map FlowRow.throughput).sum / rows.length,
          avg_delay := (rows.map FlowRow.avgDelay).sum / rows.length,
          avg_pdr := (rows.map FlowRow.pdr).sum / rows.length,
          total_flows := rows.length,
          successful_flows := (rows.filter fun r => 0 < r.pdr).length })
    ∧ ∀ sp : TrialSpec, analyzeOne sp [] = none := by
  constructor
  · intro sp rows hne
    rw [analyzeOne, if_neg (by simpa using hne)]
    simp [listMean]
  · intro sp
    rfl

/-- Witness for C2 at a concrete two-flow CSV. -/
theorem analyzeOne_flow_rollup_witness :
    analyzeOne spec0 [row3, row3] = some
      { protocol := "rtmhr", nodes := 30, speed := 5, traffic := "low",
        seed := 1, avg_throughput := 5, avg_delay := 1 / 2, avg_pdr := 1,
        total_flows := 2, successful_flows := 2 } := by
  rw [analyzeOne_flow_rollup.1 spec0 [row3, row3] (by simp)]
  simp [spec0, row3]

/-- C2 counterexample: for a two-flow CSV whose per-flow TxPackets sum to 6
and TxBytes to 6144, the produced per-trial record carries no packet or byte
sums: its only count fields are the flow counts, both equal to 2. -/
theorem analyzeOne_no_packet_sums :
    analyzeOne spec0 [row3, row3] = some
      { protocol := "rtmhr", nodes := 30, speed := 5, traffic := "low",
        seed := 1, avg_throughput := 5, avg_delay := 1 / 2, avg_pdr := 1,
        total_flows := 2, successful_flows := 2 }
    ∧ ([row3, row3].map FlowRow.txPackets).sum = 6
    ∧ ([row3, row3].map FlowRow.txBytes).sum = 6144
    ∧ (2 : Nat) ≠ 6 ∧ (2 : Nat) ≠ 6144 := by
  refine ⟨?_, by decide, by decide, by decide, by decide⟩
  rw [analyzeOne, if_neg (by simp)]
  simp [spec0, row3, listMean]

end RtmhrEval

namespace RtmhrEval

theorem listMean_replicate (n : Nat) (v : ℚ) (h : n ≠ 0) :
    listMean (List.replicate n v) = v := by
  rw [listMean, List.sum_replicate, List.length_replicate, nsmul_eq_mul,
    mul_comm, mul_div_assoc, div_self (by exact_mod_cast h), mul_one]

theorem sampleVar_replicate (n : Nat) (v : ℚ) (h : 2 ≤ n) :
    sampleVar (List.replicate n v) = some 0 := by
  rw [sampleVar, if_neg (by simp; omega)]
  congr 1
  rw [listMean_replicate n v (by omega), List.map_replicate]
  simp

theorem protocolKeys_replicate (r : TrialRecord) (n : Nat) (h : 1 ≤ n) :
    protocolKeys (List.replicate n r) = [r.protocol] := by
  rw [protocolKeys, List.map_replicate, ListAux.dedup_replicate _ _ h]

theorem protocolGroup_replicate (r : TrialRecord) (n : Nat) :
    protocolGroup (List.replicate n r) r.protocol = List.replicate n r := by
  rw [protocolGroup, List.filter_eq_self]
  intro a ha
  rw [List.eq_of_mem_replicate ha]
  simp

theorem sqrtRound4_zero : sqrtRound4 0 = 0 := by
  norm_num [sqrtRound4]

/-- C3 counterexample: aggregating a single per-trial record yields a group
of sample count 1 whose emitted standard deviation is the pandas ddof = 1
NaN (none; rounding preserves NaN), not 0 as the claim requires. -/
theorem protocolStats_single_sample_counterexample :
    protocolStats [rec1]
      = [{ protocol := "rtmhr", throughputMean := 5, throughputStd := none,
           delayMean := 2, delayStd := none, pdrMean := 95, pdrStd := none }]
    ∧ (none : Option ℚ) ≠ some 0 := by
  constructor
  · norm_num [protocolStats, protocolKeys, protocolGroup, rec1, listMean,
      sampleVar, round4, roundHalfEven]
  · simp

/-- C3 amended: every emitted protocol group has at least one contributing
record; aggregating N ≥ 2 identical records yields the common value rounded
to 4 decimal places (the .round(4) of the emitted table) as mean and an
exactly zero standard deviation; aggregating a single record yields the
rounded value as mean but an undefined (NaN, modelled none) standard
deviation rather than 0. -/
theorem protocolStats_invariants :
    (∀ (rs : List TrialRecord) (k : String), k ∈ protocolKeys rs →
      1 ≤ (protocolGroup rs k).length)
    ∧ (∀ (r : TrialRecord) (n : Nat), 2 ≤ n →
      protocolStats (List.replicate n r)
        = [{ protocol := r.protocol,
             throughputMean := round4 r.avg_throughput,
             throughputStd := some 0,
             delayMean := round4 r.avg_delay, delayStd := some 0,
             pdrMean := round4 r.avg_pdr, pdrStd := some 0 }])
    ∧ ∀ r : TrialRecord,
      protocolStats [r]
        = [{ protocol := r.protocol,
             throughputMean := round4 r.avg_throughput, throughputStd := none,
             delayMean := round4 r.avg_delay, delayStd := none,
             pdrMean := round4 r.avg_pdr, pdrStd := none }] := by
  refine ⟨?_, ?_, ?_⟩
  · intro rs k hk
    rw [protocolKeys] at hk
    obtain ⟨r, hr, hrk⟩ := List.mem_map.mp (List.mem_dedup.mp hk)
    have hmem : r ∈ protocolGroup rs k :=
      List.mem_filter.mpr ⟨hr, by simp [hrk]⟩
    exact List.length_pos.mpr (List.ne_nil_of_mem hmem)
  · intro r n h
    rw [protocolStats, protocolKeys_replicate r n (by omega), List.map_cons,
      List.map_nil]
    simp only [protocolGroup_replicate, List.map_replicate]
    rw [listMean_replicate n _ (by omega), listMean_replicate n _ (by omega),
      listMean_replicate n _ (by omega), sampleVar_replicate n _ h,
      sampleVar_replicate n _ h, sampleVar_replicate n _ h]
    simp [sqrtRound4_zero]
  · intro r
    simp [protocolStats, protocolKeys, protocolGroup, listMean, sampleVar]

/-- Witness for C3: a concrete emitted group has positive size, and two
identical records aggregate to their (4-decimal-rounded) common values with
a zero standard deviation. -/
theorem protocolStats_invariants_witness :
    1 ≤ (protocolGroup [rec1] "rtmhr").length
    ∧ protocolStats (List.replicate 2 rec1)
      = [{ protocol := "rtmhr", throughputMean := 5, throughputStd := some 0,
           delayMean := 2, delayStd := some 0, pdrMean := 95,
           pdrStd := some 0 }] := by
  refine ⟨protocolStats_invariants.1 [rec1] "rtmhr" (by decide), ?_⟩
  rw [protocolStats_invariants.2.1 rec1 2 (by norm_num)]
  norm_num [rec1, round4, roundHalfEven]

end RtmhrEval

namespace ScalingCmp

/-- C1 counterexample: at equal PDR and equal throughput but delays 100 and
1 (difference 99 ≥ ε), the winner rule of the code returns a tie, whereas
the claimed third tier would make the lower-delay record (the second one)
the winner: the code never consults delay. -/
theorem determineWinner_delay_tier_counterexample :
    determineWinner ⟨50, 5, 100, 0, 0⟩ ⟨50, 5, 1, 0, 0⟩ = Winner.tie
    ∧ |(50 : ℚ) - 50| < epsTol
    ∧ |(5 : ℚ) - 5| < epsTol
    ∧ epsTol ≤ |(100 : ℚ) - 1|
    ∧ Winner.tie ≠ Winner.second := by
  refine ⟨?_, by norm_num [epsTol], by norm_num [epsTol],
    by norm_num [epsTol], by simp⟩
  simp [determineWinner, epsTol]

/-- C1 amended: the verdict follows a two-tier rule with tolerance ε = 0.1,
evaluated in order: if the PDR difference reaches ε the higher PDR wins;
otherwise if the throughput difference reaches ε the higher throughput wins;
otherwise the verdict is a tie — delay never decides. -/
theorem determineWinner_two_tier :
    ∀ x y : ProtoStats,
      (epsTol ≤ |x.pdr - y.pdr| → y.pdr < x.pdr →
        determineWinner x y = Winner.first)
      ∧ (epsTol ≤ |x.pdr - y.pdr| → x.pdr < y.pdr →
        determineWinner x y = Winner.second)
      ∧ (|x.pdr - y.pdr| < epsTol → epsTol ≤ |x.throughput - y.throughput| →
        y.throughput < x.throughput → determineWinner x y = Winner.first)
      ∧ (|x.pdr - y.pdr| < epsTol → epsTol ≤ |x.throughput - y.throughput| →
        x.throughput < y.throughput → determineWinner x y = Winner.second)
      ∧ (|x.pdr - y.pdr| < epsTol → |x.throughput - y.throughput| < epsTol →
        determineWinner x y = Winner.tie) := by
  intro x y
  refine ⟨?_, ?_, ?_, ?_, ?_⟩
  · intro h1 h2
    simp [determineWinner, not_lt.mpr h1, h2]
  · intro h1 h2
    simp [determineWinner, not_lt.mpr h1, lt_asymm h2]
  · intro h1 h2 h3
    simp [determineWinner, h1, not_lt.mpr h2, h3]
  · intro h1 h2 h3
    simp [determineWinner, h1, not_lt.mpr h2, lt_asymm h3]
  · intro h1 h2
    simp [determineWinner, h1, h2]

/-- Witness for C1 at concrete records exercising the PDR tier, the
throughput tier, and the tie outcome. -/
theorem determineWinner_two_tier_witness :
    determineWinner ⟨99, 5, 3, 0, 0⟩ ⟨50, 5, 3, 0, 0⟩ = Winner.first
    ∧ determineWinner ⟨50, 7, 3, 0, 0⟩ ⟨50, 5, 3, 0, 0⟩ = Winner.first
    ∧ determineWinner ⟨50, 5, 9, 0, 0⟩ ⟨50, 5, 3, 0, 0⟩ = Winner.tie :=
  ⟨(determineWinner_two_tier ⟨99, 5, 3, 0, 0⟩ ⟨50, 5, 3, 0, 0⟩).1
      (by norm_num [epsTol]) (by norm_num),
   (determineWinner_two_tier ⟨50, 7, 3, 0, 0⟩ ⟨50, 5, 3, 0, 0⟩).2.2.1
      (by norm_num [epsTol]) (by norm_num [epsTol]) (by norm_num),
   (determineWinner_two_tier ⟨50, 5, 9, 0, 0⟩ ⟨50, 5, 3, 0, 0⟩).2.2.2.2
      (by norm_num [epsTol]) (by norm_num [epsTol])⟩

/-- C6: the winner rule is argument-order symmetric: comparing in either
order names the same underlying protocol as winner (or a tie in both
orders), and the deciding tier is the same in both orders. -/
theorem determineWinner_symmetric :
    ∀ (x y : ProtoStats) (p q : String),
      resolveWinner (determineWinner x y) p q
        = resolveWinner (determineWinner y x) q p
      ∧ decidingTier x y = decidingTier y x := by
  intro x y p q
  have hpdr : |y.pdr - x.pdr| = |x.pdr - y.pdr| := abs_sub_comm y.pdr x.pdr
  have hthr : |y.throughput - x.throughput| = |x.throughput - y.throughput| :=
    abs_sub_comm y.throughput x.throughput
  have heps : (0 : ℚ) < epsTol := by norm_num [epsTol]
  constructor
  · by_cases h1 : |x.pdr - y.pdr| < epsTol
    · by_cases h2 : |x.throughput - y.throughput| < epsTol
      · simp [determineWinner, h1, h2, hpdr, hthr, resolveWinner]
      · have hne : x.throughput ≠ y.throughput := by
          intro he
          apply h2
          rw [he, sub_self, abs_zero]
          exact heps
        rcases lt_or_gt_of_ne hne with hlt | hgt
        · simp [determineWinner, h1, h2, hpdr, hthr, resolveWinner, hlt,
            lt_asymm hlt]
        · simp [determineWinner, h1, h2, hpdr, hthr, resolveWinner, hgt,
            lt_asymm hgt]
    · have hne : x.pdr ≠ y.pdr := by
        intro he
        apply h1
        rw [he, sub_self, abs_zero]
        exact heps
      rcases lt_or_gt_of_ne hne with hlt | hgt
      · simp [determineWinner, h1, hpdr, resolveWinner, hlt, lt_asymm hlt]
      · simp [determineWinner, h1, hpdr, resolveWinner, hgt, lt_asymm hgt]
  · by_cases h1 : |x.pdr - y.pdr| < epsTol
    · by_cases h2 : |x.throughput - y.throughput| < epsTol
      · simp [decidingTier, h1, h2, hpdr, hthr]
      · simp [decidingTier, h1, h2, hpdr, hthr]
    · simp [decidingTier, h1, hpdr]

end ScalingCmp

namespace ScalingTest

theorem processLine_set_pdr (m : Metrics) (line : PyStr) (v : ℚ)
    (h1 : hasInfix pdrLabel line = true)
    (h2 : parseFloatPy (removeAll pctPat (valuePart line)) = some v) :
    processLine m line = Except.ok { m with pdr := some v } := by
  simp only [processLine, h1, if_true, h2]

theorem processLine_set_throughput (m : Metrics) (line : PyStr) (v : ℚ)
    (h0 : hasInfix pdrLabel line = false)
    (h1 : hasInfix throughputLabel line = true)
    (h2 : parseFloatPy (removeAll kbpsPat (valuePart line)) = some v) :
    processLine m line = Except.ok { m with throughput := some v } := by
  simp only [processLine, h0, Bool.false_eq_true, if_false, h1, if_true, h2]

theorem processLine_set_delay (m : Metrics) (line : PyStr) (v : ℚ)
    (h0 : hasInfix pdrLabel line = false)
    (h0b : hasInfix throughputLabel line = false)
    (h1 : hasInfix delayLabel line = true)
    (h2 : parseFloatPy (removeAll msPat (valuePart line)) = some v) :
    processLine m line = Except.ok { m with delay := some v } := by
  simp only [processLine, h0, h0b, Bool.false_eq_true, if_false, h1, if_true, h2]

theorem processLine_set_tx (m : Metrics) (line : PyStr) (v : Int)
    (h0 : hasInfix pdrLabel line = false)
    (h0b : hasInfix throughputLabel line = false)
    (h0c : hasInfix delayLabel line = false)
    (h1 : hasInfix txLabel line = true)
    (h2 : parseIntPy (valuePart line) = some v) :
    processLine m line = Except.ok { m with tx_packets := some v } := by
  simp only [processLine, h0, h0b, h0c, Bool.false_eq_true, if_false, h1,
    if_true, h2]

theorem processLine_set_rx (m : Metrics) (line : PyStr) (v : Int)
    (h0 : hasInfix pdrLabel line = false)
    (h0b : hasInfix throughputLabel line = false)
    (h0c : hasInfix delayLabel line = false)
    (h0d : hasInfix txLabel line = false)
    (h1 : hasInfix rxLabel line = true)
    (h2 : parseIntPy (valuePart line) = some v) :
    processLine m line = Except.ok { m with rx_packets := some v } := by
  simp only [processLine, h0, h0b, h0c, h0d, Bool.false_eq_true, if_false, h1,
    if_true, h2]

theorem processLine_unrecognized (m : Metrics) (line : PyStr)
    (h0 : hasInfix pdrLabel line = false)
    (h0b : hasInfix throughputLabel line = false)
    (h0c : hasInfix delayLabel line = false)
    (h0d : hasInfix txLabel line = false)
    (h0e : hasInfix rxLabel line = false) :
    processLine m line = Except.ok m := by
  simp only [processLine, h0, h0b, h0c, h0d, h0e, Bool.false_eq_true, if_false]

theorem processLine_error_of_bad (m : Metrics) (line : PyStr)
    (h : badMetricLine line = true) :
    processLine m line = Except.error (strippedValue line) := by
  unfold badMetricLine at h
  unfold processLine strippedValue
  by_cases c1 : hasInfix pdrLabel line = true
  · simp only [c1, if_true] at h ⊢
    cases hp : parseFloatPy (removeAll pctPat (valuePart line)) with
    | some v => simp [hp] at h
    | none => simp [hp]
  · rw [Bool.not_eq_true] at c1
    simp only [c1, Bool.false_eq_true, if_false] at h ⊢
    by_cases c2 : hasInfix throughputLabel line = true
    · simp only [c2, if_true] at h ⊢
      cases hp : parseFloatPy (removeAll kbpsPat (valuePart line)) with
      | some v => simp [hp] at h
      | none => simp [hp]
    · rw [Bool.not_eq_true] at c2
      simp only [c2, Bool.false_eq_true, if_false] at h ⊢
      by_cases c3 : hasInfix delayLabel line = true
      · simp only [c3, if_true] at h ⊢
        cases hp : parseFloatPy (removeAll msPat (valuePart line)) with
        | some v => simp [hp] at h
        | none => simp [hp]
      · rw [Bool.not_eq_true] at c3
        simp only [c3, Bool.false_eq_true, if_false] at h ⊢
        by_cases c4 : hasInfix txLabel line = true
        · simp only [c4, if_true] at h ⊢
          cases hp : parseIntPy (valuePart line) with
          | some v => simp [hp] at h
          | none => simp [hp]
        · rw [Bool.not_eq_true] at c4
          simp only [c4, Bool.false_eq_true, if_false] at h ⊢
          by_cases c5 : hasInfix rxLabel line = true
          · simp only [c5, if_true] at h ⊢
            cases hp : parseIntPy (valuePart line) with
            | some v => simp [hp] at h
            | none => simp [hp]
          · rw [Bool.not_eq_true] at c5
            simp only [c5, Bool.false_eq_true, if_false] at h

theorem processLine_ok_of_not_bad (m : Metrics) (line : PyStr)
    (h : badMetricLine line = false) :
    ∃ m2, processLine m line = Except.ok m2 := by
  unfold badMetricLine at h
  unfold processLine
  by_cases c1 : hasInfix pdrLabel line = true
  · simp only [c1, if_true] at h ⊢
    cases hp : parseFloatPy (removeAll pctPat (valuePart line)) with
    | some v => exact ⟨{ m with pdr := some v }, by simp [hp]⟩
    | none => simp [hp] at h
  · rw [Bool.not_eq_true] at c1
    simp only [c1, Bool.false_eq_true, if_false] at h ⊢
    by_cases c2 : hasInfix throughputLabel line = true
    · simp only [c2, if_true] at h ⊢
      cases hp : parseFloatPy (removeAll kbpsPat (valuePart line)) with
      | some v => exact ⟨{ m with throughput := some v }, by simp [hp]⟩
      | none => simp [hp] at h
    · rw [Bool.not_eq_true] at c2
      simp only [c2, Bool.false_eq_true, if_false] at h ⊢
      by_cases c3 : hasInfix delayLabel line = true
      · simp only [c3, if_true] at h ⊢
        cases hp : parseFloatPy (removeAll msPat (valuePart line)) with
        | some v => exact ⟨{ m with delay := some v }, by simp [hp]⟩
        | none => simp [hp] at h
      · rw [Bool.not_eq_true] at c3
        simp only [c3, Bool.false_eq_true, if_false] at h ⊢
        by_cases c4 : hasInfix txLabel line = true
        · simp only [c4, if_true] at h ⊢
          cases hp : parseIntPy (valuePart line) with
          | some v => exact ⟨{ m with tx_packets := some v }, by simp [hp]⟩
          | none => simp [hp] at h
        · rw [Bool.not_eq_true] at c4
          simp only [c4, Bool.false_eq_true, if_false] at h ⊢
          by_cases c5 : hasInfix rxLabel line = true
          · simp only [c5, if_true] at h ⊢
            cases hp : parseIntPy (valuePart line) with
            | some v => exact ⟨{ m with rx_packets := some v }, by simp [hp]⟩
            | none => simp [hp] at h
          · rw [Bool.not_eq_true] at c5
            simp only [c5, Bool.false_eq_true, if_false]
            exact ⟨m, rfl⟩

theorem processLine_error_elim (m : Metrics) (line : PyStr) (e : PyStr)
    (h : processLine m line = Except.error e) :
    badMetricLine line = true ∧ e = strippedValue line := by
  by_cases hb : badMetricLine line = true
  · refine ⟨hb, ?_⟩
    rw [processLine_error_of_bad m line hb] at h
    injection h with h2
    exact h2.symm
  · rw [Bool.not_eq_true] at hb
    obtain ⟨m2, hm2⟩ := processLine_ok_of_not_bad m line hb
    rw [hm2] at h
    exact Except.noConfusion h

end ScalingTest

namespace ScalingTest

theorem parseMetricsAcc_append (m : Metrics) (xs ys : List PyStr) :
    parseMetricsAcc m (xs ++ ys)
      = match parseMetricsAcc m xs with
        | .ok m2 => parseMetricsAcc m2 ys
        | .error e => .error e := by
  induction xs generalizing m with
  | nil => simp [parseMetricsAcc]
  | cons l ls ih =>
    simp only [List.cons_append, parseMetricsAcc]
    cases processLine m l with
    | ok m2 => exact ih m2
    | error e => rfl

theorem parseMetricsAcc_error_of_mem (lines : List PyStr) :
    ∀ (m : Metrics) (l : PyStr), l ∈ lines → badMetricLine l = true →
      ∃ e, parseMetricsAcc m lines = Except.error e := by
  induction lines with
  | nil =>
    intro m l hl
    simp at hl
  | cons x xs ih =>
    intro m l hl hb
    by_cases hbx : badMetricLine x = true
    · exact ⟨strippedValue x,
        by simp [parseMetricsAcc, processLine_error_of_bad m x hbx]⟩
    · rw [Bool.not_eq_true] at hbx
      obtain ⟨m2, hm2⟩ := processLine_ok_of_not_bad m x hbx
      have hlxs : l ∈ xs := by
        rcases List.mem_cons.mp hl with rfl | hm
        · exact absurd hb (by simp [hbx])
        · exact hm
      obtain ⟨e, he⟩ := ih m2 l hlxs hb
      exact ⟨e, by simp [parseMetricsAcc, hm2, he]⟩

theorem parseMetricsAcc_error_names (lines : List PyStr) :
    ∀ (m : Metrics) (e : PyStr), parseMetricsAcc m lines = Except.error e →
      ∃ l, l ∈ lines ∧ badMetricLine l = true ∧ e = strippedValue l := by
  induction lines with
  | nil =>
    intro m e h
    simp [parseMetricsAcc] at h
  | cons x xs ih =>
    intro m e h
    simp only [parseMetricsAcc] at h
    cases hp : processLine m x with
    | ok m2 =>
      rw [hp] at h
      obtain ⟨l, hl, hb, he⟩ := ih m2 e h
      exact ⟨l, List.mem_cons_of_mem x hl, hb, he⟩
    | error e0 =>
      rw [hp] at h
      injection h with h2
      obtain ⟨hb, hs⟩ := processLine_error_elim m x e0 hp
      exact ⟨x, List.mem_cons_self x xs, hb, h2 ▸ hs⟩

theorem processLine_preserves_pdr (m m2 : Metrics) (line : PyStr)
    (h0 : hasInfix pdrLabel line = false)
    (h : processLine m line = Except.ok m2) : m2.pdr = m.pdr := by
  simp only [processLine, h0, Bool.false_eq_true, if_false] at h
  repeat' split at h
  all_goals cases h
  all_goals rfl

theorem processLine_preserves_throughput (m m2 : Metrics) (line : PyStr)
    (h0 : hasInfix throughputLabel line = false)
    (h : processLine m line = Except.ok m2) : m2.throughput = m.throughput := by
  simp only [processLine, h0, Bool.false_eq_true, if_false] at h
  repeat' split at h
  all_goals cases h
  all_goals rfl

theorem processLine_preserves_delay (m m2 : Metrics) (line : PyStr)
    (h0 : hasInfix delayLabel line = false)
    (h : processLine m line = Except.ok m2) : m2.delay = m.delay := by
  simp only [processLine, h0, Bool.false_eq_true, if_false] at h
  repeat' split at h
  all_goals cases h
  all_goals rfl

theorem processLine_preserves_tx (m m2 : Metrics) (line : PyStr)
    (h0 : hasInfix txLabel line = false)
    (h : processLine m line = Except.ok m2) : m2.tx_packets = m.tx_packets := by
  simp only [processLine, h0, Bool.false_eq_true, if_false] at h
  repeat' split at h
  all_goals cases h
  all_goals rfl

theorem processLine_preserves_rx (m m2 : Metrics) (line : PyStr)
    (h0 : hasInfix rxLabel line = false)
    (h : processLine m line = Except.ok m2) : m2.rx_packets = m.rx_packets := by
  simp only [processLine, h0, Bool.false_eq_true, if_false] at h
  repeat' split at h
  all_goals cases h
  all_goals rfl

theorem parseMetricsAcc_preserves_pdr (lines : List PyStr) :
    ∀ m m2, parseMetricsAcc m lines = Except.ok m2 →
      (∀ l ∈ lines, hasInfix pdrLabel l = false) → m2.pdr = m.pdr := by
  induction lines with
  | nil =>
    intro m m2 h _
    simp only [parseMetricsAcc] at h
    injection h with h2
    rw [h2]
  | cons x xs ih =>
    intro m m2 h hall
    simp only [parseMetricsAcc] at h
    cases hp : processLine m x with
    | ok mm =>
      rw [hp] at h
      rw [ih mm m2 h fun l hl => hall l (List.mem_cons_of_mem x hl)]
      exact processLine_preserves_pdr m mm x (hall x (List.mem_cons_self x xs)) hp
    | error e =>
      rw [hp] at h
      exact Except.noConfusion h

theorem parseMetricsAcc_preserves_throughput (lines : List PyStr) :
    ∀ m m2, parseMetricsAcc m lines = Except.ok m2 →
      (∀ l ∈ lines, hasInfix throughputLabel l = false) →
      m2.throughput = m.throughput := by
  induction lines with
  | nil =>
    intro m m2 h _
    simp only [parseMetricsAcc] at h
    injection h with h2
    rw [h2]
  | cons x xs ih =>
    intro m m2 h hall
    simp only [parseMetricsAcc] at h
    cases hp : processLine m x with
    | ok mm =>
      rw [hp] at h
      rw [ih mm m2 h fun l hl => hall l (List.mem_cons_of_mem x hl)]
      exact processLine_preserves_throughput m mm x
        (hall x (List.mem_cons_self x xs)) hp
    | error e =>
      rw [hp] at h
      exact Except.noConfusion h

theorem parseMetricsAcc_preserves_delay (lines : List PyStr) :
    ∀ m m2, parseMetricsAcc m lines = Except.ok m2 →
      (∀ l ∈ lines, hasInfix delayLabel l = false) → m2.delay = m.delay := by
  induction lines with
  | nil =>
    intro m m2 h _
    simp only [parseMetricsAcc] at h
    injection h with h2
    rw [h2]
  | cons x xs ih =>
    intro m m2 h hall
    simp only [parseMetricsAcc] at h
    cases hp : processLine m x with
    | ok mm =>
      rw [hp] at h
      rw [ih mm m2 h fun l hl => hall l (List.mem_cons_of_mem x hl)]
      exact processLine_preserves_delay m mm x
        (hall x (List.mem_cons_self x xs)) hp
    | error e =>
      rw [hp] at h
      exact Except.noConfusion h

theorem parseMetricsAcc_preserves_tx (lines : List PyStr) :
    ∀ m m2, parseMetricsAcc m lines = Except.ok m2 →
      (∀ l ∈ lines, hasInfix txLabel l = false) →
      m2.tx_packets = m.tx_packets := by
  induction lines with
  | nil =>
    intro m m2 h _
    simp only [parseMetricsAcc] at h
    injection h with h2
    rw [h2]
  | cons x xs ih =>
    intro m m2 h hall
    simp only [parseMetricsAcc] at h
    cases hp : processLine m x with
    | ok mm =>
      rw [hp] at h
      rw [ih mm m2 h fun l hl => hall l (List.mem_cons_of_mem x hl)]
      exact processLine_preserves_tx m mm x
        (hall x (List.mem_cons_self x xs)) hp
    | error e =>
      rw [hp] at h
      exact Except.noConfusion h

theorem parseMetricsAcc_preserves_rx (lines : List PyStr) :
    ∀ m m2, parseMetricsAcc m lines = Except.ok m2 →
      (∀ l ∈ lines, hasInfix rxLabel l = false) →
      m2.rx_packets = m.rx_packets := by
  induction lines with
  | nil =>
    intro m m2 h _
    simp only [parseMetricsAcc] at h
    injection h with h2
    rw [h2]
  | cons x xs ih =>
    intro m m2 h hall
    simp only [parseMetricsAcc] at h
    cases hp : processLine m x with
    | ok mm =>
      rw [hp] at h
      rw [ih mm m2 h fun l hl => hall l (List.mem_cons_of_mem x hl)]
      exact processLine_preserves_rx m mm x
        (hall x (List.mem_cons_self x xs)) hp
    | error e =>
      rw [hp] at h
      exact Except.noConfusion h

theorem collectResults_mem (env : Nat → SimOutcome) (sizes : List Nat)
    (n : Nat) (hn : n ∈ sizes) (v : Metrics)
    (hv : runSimulation (env n) = some v) (hne : metricsNonempty v = true) :
    (n, v) ∈ collectResults env sizes := by
  rw [collectResults]
  exact List.mem_filterMap.mpr ⟨n, hn, by simp [hv, hne]⟩

end ScalingTest

namespace ScalingTest

/-- C8: whenever a trial's output contains a recognized metric line whose
value text is not numeric after unit stripping, parsing aborts with a
returned error value (the caught ValueError) whose payload is the offending
stripped value text of an actual bad line in the output; run_simulation then
returns the failure marker None instead of raising, and every other trial of
the sweep that succeeds still contributes its entry to the collected
results. -/
theorem runSimulation_bad_value (env : Nat → SimOutcome) (sizes : List Nat)
    (n : Nat) (lines : List PyStr) (err : PyStr) (l : PyStr)
    (henv : env n = SimOutcome.completed 0 lines err)
    (hl : l ∈ lines) (hb : badMetricLine l = true) :
    (∃ e, parseMetricsE lines = Except.error e)
    ∧ (∀ e, parseMetricsE lines = Except.error e →
        ∃ l2, l2 ∈ lines ∧ badMetricLine l2 = true ∧ e = strippedValue l2)
    ∧ runSimulation (env n) = none
    ∧ ∀ m ∈ sizes, ∀ v, runSimulation (env m) = some v →
        metricsNonempty v = true → (m, v) ∈ collectResults env sizes := by
  have he : ∃ e, parseMetricsE lines = Except.error e :=
    parseMetricsAcc_error_of_mem lines initMetrics l hl hb
  refine ⟨he, fun e h => parseMetricsAcc_error_names lines initMetrics e h,
    ?_, ?_⟩
  · obtain ⟨e, hee⟩ := he
    rw [henv]
    simp [runSimulation, hee]
  · intro m hm v hv hne
    exact collectResults_mem env sizes m hm v hv hne

/-- Witness for C8: in a two-trial sweep where trial 3 emits a malformed PDR
line, trial 3 returns None while trial 4's metrics are still collected. -/
theorem runSimulation_bad_value_witness :
    runSimulation (envW 3) = none
    ∧ (4, m0) ∈ collectResults envW [3, 4] := by
  have h := runSimulation_bad_value envW [3, 4] 3 [badLine0] [] badLine0
    rfl (by simp) (by decide)
  have h4 : runSimulation (envW 4) = some m0 := by
    simp [runSimulation, envW, parseMetricsE, parseMetricsAcc, processLine,
      goodLine0, initMetrics, m0, valuePart, splitOnChar, pyStrip, removeAll,
      removeAllFuel, pctPat, parseFloatPy, parseUnsignedFloat, digitsToNat,
      fracValue, pdrLabel, hasInfix]
    norm_num
  exact ⟨h.2.2.1, h.2.2.2 4 (by simp) m0 h4 (by decide)⟩

/-- C9: the free-text parser maps exactly the five recognized labels, in the
source dispatch order, to the corresponding metric fields after stripping
the %, kbps and ms unit suffixes; a line containing no recognized label
leaves the metrics dictionary unchanged; and a label absent from the whole
output leaves its field unset (none) rather than defaulted to zero. -/
theorem parseOutput_label_mapping :
    (∀ (m : Metrics) (line : PyStr) (v : ℚ),
      hasInfix pdrLabel line = true →
      parseFloatPy (removeAll pctPat (valuePart line)) = some v →
      processLine m line = Except.ok { m with pdr := some v })
    ∧ (∀ (m : Metrics) (line : PyStr) (v : ℚ),
      hasInfix pdrLabel line = false →
      hasInfix throughputLabel line = true →
      parseFloatPy (removeAll kbpsPat (valuePart line)) = some v →
      processLine m line = Except.ok { m with throughput := some v })
    ∧ (∀ (m : Metrics) (line : PyStr) (v : ℚ),
      hasInfix pdrLabel line = false →
      hasInfix throughputLabel line = false →
      hasInfix delayLabel line = true →
      parseFloatPy (removeAll msPat (valuePart line)) = some v →
      processLine m line = Except.ok { m with delay := some v })
    ∧ (∀ (m : Metrics) (line : PyStr) (v : Int),
      hasInfix pdrLabel line = false →
      hasInfix throughputLabel line = false →
      hasInfix delayLabel line = false →
      hasInfix txLabel line = true →
      parseIntPy (valuePart line) = some v →
      processLine m line = Except.ok { m with tx_packets := some v })
    ∧ (∀ (m : Metrics) (line : PyStr) (v : Int),
      hasInfix pdrLabel line = false →
      hasInfix throughputLabel line = false →
      hasInfix delayLabel line = false →
      hasInfix txLabel line = false →
      hasInfix rxLabel line = true →
      parseIntPy (valuePart line) = some v →
      processLine m line = Except.ok { m with rx_packets := some v })
    ∧ (∀ (m : Metrics) (line : PyStr),
      hasInfix pdrLabel line = false →
      hasInfix throughputLabel line = false →
      hasInfix delayLabel line = false →
      hasInfix txLabel line = false →
      hasInfix rxLabel line = false →
      processLine m line = Except.ok m)
    ∧ ∀ (lines : List PyStr) (m2 : Metrics),
      parseMetricsE lines = Except.ok m2 →
      ((∀ l ∈ lines, hasInfix pdrLabel l = false) → m2.pdr = none)
      ∧ ((∀ l ∈ lines, hasInfix throughputLabel l = false) →
          m2.throughput = none)
      ∧ ((∀ l ∈ lines, hasInfix delayLabel l = false) → m2.delay = none)
      ∧ ((∀ l ∈ lines, hasInfix txLabel l = false) → m2.tx_packets = none)
      ∧ ((∀ l ∈ lines, hasInfix rxLabel l = false) → m2.rx_packets = none) :=
  ⟨fun m line v h1 h2 => processLine_set_pdr m line v h1 h2,
   fun m line v h0 h1 h2 => processLine_set_throughput m line v h0 h1 h2,
   fun m line v h0 h0b h1 h2 => processLine_set_delay m line v h0 h0b h1 h2,
   fun m line v h0 h0b h0c h1 h2 =>
     processLine_set_tx m line v h0 h0b h0c h1 h2,
   fun m line v h0 h0b h0c h0d h1 h2 =>
     processLine_set_rx m line v h0 h0b h0c h0d h1 h2,
   fun m line h0 h0b h0c h0d h0e =>
     processLine_unrecognized m line h0 h0b h0c h0d h0e,
   fun lines m2 h =>
     ⟨fun hall => parseMetricsAcc_preserves_pdr lines initMetrics m2 h hall,
      fun hall =>
        parseMetricsAcc_preserves_throughput lines initMetrics m2 h hall,
      fun hall => parseMetricsAcc_preserves_delay lines initMetrics m2 h hall,
      fun hall => parseMetricsAcc_preserves_tx lines initMetrics m2 h hall,
      fun hall => parseMetricsAcc_preserves_rx lines initMetrics m2 h hall⟩⟩

/-- Witness for C9: the PDR line with a % suffix parses into the pdr field,
an unrecognized line leaves the dictionary unchanged, and an output without
a Total Tx Packets line leaves tx unset. -/
theorem parseOutput_label_mapping_witness :
    processLine initMetrics goodLine0
      = Except.ok { initMetrics with pdr := some (191 / 2) }
    ∧ processLine initMetrics ("hello world".toList) = Except.ok initMetrics
    ∧ m0.tx_packets = none := by
  have hv : removeAll pctPat (valuePart goodLine0) = "95.5".toList := by decide
  have hp : parseFloatPy (removeAll pctPat (valuePart goodLine0))
      = some (191 / 2) := by
    rw [hv]
    show parseFloatPy ['9', '5', '.', '5'] = some (191 / 2)
    simp [parseFloatPy, pyStrip, parseUnsignedFloat, splitOnChar, digitsToNat,
      fracValue]
    norm_num
  have hE : parseMetricsE [goodLine0] = Except.ok m0 := by
    simp [parseMetricsE, parseMetricsAcc,
      processLine_set_pdr initMetrics goodLine0 (191 / 2) (by decide) hp, m0]
  exact ⟨parseOutput_label_mapping.1 initMetrics goodLine0 (191 / 2)
      (by decide) hp,
    parseOutput_label_mapping.2.2.2.2.2.1 initMetrics ("hello world".toList)
      (by decide) (by decide) (by decide) (by decide) (by decide),
    (parseOutput_label_mapping.2.2.2.2.2.2 [goodLine0] m0 hE).2.2.2.1
      (by decide)⟩

/-- C10: when several lines match the same recognized label, each later
matching line overwrites the field value taken from the earlier ones, so the
returned metrics hold the value of the last such line. -/
theorem parseOutput_last_line_wins :
    ∀ (pre : List PyStr) (m1 : Metrics) (line : PyStr),
      parseMetricsAcc initMetrics pre = Except.ok m1 →
      (∀ v : ℚ, hasInfix pdrLabel line = true →
        parseFloatPy (removeAll pctPat (valuePart line)) = some v →
        parseMetricsE (pre ++ [line]) = Except.ok { m1 with pdr := some v })
      ∧ (∀ v : ℚ, hasInfix pdrLabel line = false →
        hasInfix throughputLabel line = true →
        parseFloatPy (removeAll kbpsPat (valuePart line)) = some v →
        parseMetricsE (pre ++ [line])
          = Except.ok { m1 with throughput := some v })
      ∧ (∀ v : ℚ, hasInfix pdrLabel line = false →
        hasInfix throughputLabel line = false →
        hasInfix delayLabel line = true →
        parseFloatPy (removeAll msPat (valuePart line)) = some v →
        parseMetricsE (pre ++ [line]) = Except.ok { m1 with delay := some v })
      ∧ (∀ v : Int, hasInfix pdrLabel line = false →
        hasInfix throughputLabel line = false →
        hasInfix delayLabel line = false →
        hasInfix txLabel line = true →
        parseIntPy (valuePart line) = some v →
        parseMetricsE (pre ++ [line])
          = Except.ok { m1 with tx_packets := some v })
      ∧ ∀ v : Int, hasInfix pdrLabel line = false →
        hasInfix throughputLabel line = false →
        hasInfix delayLabel line = false →
        hasInfix txLabel line = false →
        hasInfix rxLabel line = true →
        parseIntPy (valuePart line) = some v →
        parseMetricsE (pre ++ [line])
          = Except.ok { m1 with rx_packets := some v } := by
  intro pre m1 line hpre
  have hap : ∀ m2 : Metrics, processLine m1 line = Except.ok m2 →
      parseMetricsE (pre ++ [line]) = Except.ok m2 := by
    intro m2 hm2
    rw [parseMetricsE, parseMetricsAcc_append, hpre]
    simp [parseMetricsAcc, hm2]
  exact ⟨fun v h1 h2 => hap _ (processLine_set_pdr m1 line v h1 h2),
    fun v h0 h1 h2 => hap _ (processLine_set_throughput m1 line v h0 h1 h2),
    fun v h0 h0b h1 h2 =>
      hap _ (processLine_set_delay m1 line v h0 h0b h1 h2),
    fun v h0 h0b h0c h1 h2 =>
      hap _ (processLine_set_tx m1 line v h0 h0b h0c h1 h2),
    fun v h0 h0b h0c h0d h1 h2 =>
      hap _ (processLine_set_rx m1 line v h0 h0b h0c h0d h1 h2)⟩

/-- Witness for C10: two PDR lines in sequence leave the value of the second
one (50, overwriting 95.5) in the pdr field. -/
theorem parseOutput_last_line_wins_witness :
    parseMetricsE [goodLine0, goodLine1]
      = Except.ok { initMetrics with pdr := some 50 } := by
  have hv : removeAll pctPat (valuePart goodLine0) = "95.5".toList := by decide
  have hp : parseFloatPy (removeAll pctPat (valuePart goodLine0))
      = some (191 / 2) := by
    rw [hv]
    show parseFloatPy ['9', '5', '.', '5'] = some (191 / 2)
    simp [parseFloatPy, pyStrip, parseUnsignedFloat, splitOnChar, digitsToNat,
      fracValue]
    norm_num
  have hpre : parseMetricsAcc initMetrics [goodLine0] = Except.ok m0 := by
    simp [parseMetricsAcc,
      processLine_set_pdr initMetrics goodLine0 (191 / 2) (by decide) hp, m0]
  have hv1 : removeAll pctPat (valuePart goodLine1) = "50".toList := by decide
  have hp1 : parseFloatPy (removeAll pctPat (valuePart goodLine1))
      = some 50 := by
    rw [hv1]
    show parseFloatPy ['5', '0'] = some 50
    simp [parseFloatPy, pyStrip, parseUnsignedFloat, splitOnChar, digitsToNat]
  have h := (parseOutput_last_line_wins [goodLine0] m0 goodLine1 hpre).1 50
    (by decide) hp1
  exact h

end ScalingTest
